import Mathlib

/-!
Shallow embedding of the construction-management application
(`src/src/App.tsx`): an Express server over a SQLite database with a
session-cookie auth layer and four uniform CRUD resources
(inspections, trip-reports, estimates, minutes), plus the React
client's dashboard aggregation.
-/

/-- A SQLite storage value / JSON scalar as it flows between the request
body, the bound SQL parameters and the stored column.  `null` models both
SQL NULL and an absent JSON field bound as NULL. -/
inductive Value where
  | null
  | int (n : Int)
  | text (s : String)
  | bool (b : Bool)
deriving DecidableEq

/-- A flat JSON object (request or response body), as an association list
of key/value pairs.  JSON objects have unique keys, so first-match lookup
agrees with JS property access. -/
abbrev Obj := List (String × Value)

/-- JS property access `body.k`: the value at key `k`, or `none` when the
key is absent (JS `undefined`). -/
def lookupKey (o : Obj) (k : String) : Option Value :=
  (o.find? (fun p => p.1 == k)).map (fun p => p.2)

/-- Model of `bcrypt.hashSync(password, 10)`: an injective one-way digest
of the password, stored as TEXT in the `users.password` column.  The salt
round count does not affect the compare contract, so it is elided. -/
def bcryptHashSync (password : String) : String :=
  "bcrypt$" ++ password

/-- Model of `bcrypt.compareSync(password, hash)`: true exactly when
`hash` was produced from `password` by `bcryptHashSync`. -/
def bcryptCompareSync (password hash : String) : Bool :=
  hash == bcryptHashSync password

/-- A row of the `users` table:
`id INTEGER PRIMARY KEY AUTOINCREMENT, username TEXT UNIQUE, password TEXT, role TEXT`. -/
structure UserRow where
  id : Nat
  username : String
  password : String
  role : String
deriving DecidableEq

/-- A row of one of the four business tables.  All four share the shape
`id INTEGER PRIMARY KEY AUTOINCREMENT, user_id INTEGER, <domain fields>,
created_at DATETIME DEFAULT CURRENT_TIMESTAMP`; `fields` holds the domain
column values in the declared column order and `created_at` is the
server-assigned insertion timestamp. -/
structure Row where
  id : Nat
  user_id : Nat
  fields : List Value
  created_at : Nat
deriving DecidableEq

/-- One business table: its rows in rowid (insertion) order together with
the AUTOINCREMENT counter (next id to assign; SQLite starts at 1 and never
reuses ids). -/
structure Table where
  nextId : Nat
  rows : List Row
deriving DecidableEq

/-- The four business resources served under `/api/R`. -/
inductive Resource where
  | inspections
  | tripReports
  | estimates
  | minutes
deriving DecidableEq

/-- The domain columns of each resource, in the order the INSERT statement
binds them (after `user_id`), exactly as destructured from `req.body` in
the corresponding `app.post` handler. -/
def Resource.fields : Resource → List String
  | .inspections => ["project_name", "date", "location", "findings", "status"]
  | .tripReports => ["destination", "date_start", "date_end", "purpose", "results", "expenses"]
  | .estimates => ["client_name", "project_name", "amount", "details", "status"]
  | .minutes => ["title", "date", "attendees", "content", "action_items"]

/-- The database `construction.db` after `initSchema`: the `users` table
(with its AUTOINCREMENT counter) and the four business tables. -/
structure Db where
  usersNextId : Nat
  users : List UserRow
  inspections : Table
  trip_reports : Table
  estimates : Table
  minutes : Table
deriving DecidableEq

/-- The business table a resource path routes to. -/
def Db.table (db : Db) : Resource → Table
  | .inspections => db.inspections
  | .tripReports => db.trip_reports
  | .estimates => db.estimates
  | .minutes => db.minutes

/-- Replace the business table of one resource. -/
def Db.setTable (db : Db) : Resource → Table → Db
  | .inspections, t => { db with inspections := t }
  | .tripReports, t => { db with trip_reports := t }
  | .estimates, t => { db with estimates := t }
  | .minutes, t => { db with minutes := t }

/-- The freshly created database: every table empty, every AUTOINCREMENT
counter at 1. -/
def emptyDb : Db :=
  { usersNextId := 1
    users := []
    inspections := { nextId := 1, rows := [] }
    trip_reports := { nextId := 1, rows := [] }
    estimates := { nextId := 1, rows := [] }
    minutes := { nextId := 1, rows := [] } }

/-- `db.prepare('SELECT * FROM users WHERE username = ?').get(username)`:
the first user row with the given username, if any. -/
def findUser (users : List UserRow) (username : String) : Option UserRow :=
  users.find? (fun u => u.username == username)

/-- The boot-time seed block: if no user named "admin" exists, insert one
with the bcrypt hash of the default password "admin123" and role "admin". -/
def seedAdmin (db : Db) : Db :=
  match findUser db.users "admin" with
  | some _ => db
  | none =>
      { db with
          usersNextId := db.usersNextId + 1
          users := db.users ++
            [{ id := db.usersNextId
               username := "admin"
               password := bcryptHashSync "admin123"
               role := "admin" }] }

/-- The number of stored users named "admin". -/
def countAdmin (db : Db) : Nat :=
  (db.users.filter (fun u => u.username == "admin")).length

/-- The server-side session data set at login (`req.session.userId`,
`req.session.username`); a request with no established session carries
`none`. -/
structure Session where
  userId : Nat
  username : String
deriving DecidableEq

/-- The outcome an Express handler sends back: a 200 JSON object, a 200
JSON array of rows, or an error status with a JSON error object. -/
inductive ApiResult where
  | okObj (body : Obj)
  | okRows (rows : List Row)
  | err (status : Nat) (body : Obj)
deriving DecidableEq

/-- The keys of the JSON body of a response. -/
def ApiResult.bodyKeys : ApiResult → List String
  | .okObj b => b.map Prod.fst
  | .okRows _ => []
  | .err _ b => b.map Prod.fst

/-- Server state threaded through one client's requests: the shared
database and that client's session. -/
structure ServerState where
  db : Db
  session : Option Session
deriving DecidableEq

/-- `POST /api/login`: look up the user by username; on a bcrypt match,
store userId and username in the session and answer
`{id, username, role}`; otherwise answer 401 `{error:'Invalid credentials'}`
leaving the session as it was. -/
def postLogin (users : List UserRow) (sess : Option Session)
    (username password : String) : ApiResult × Option Session :=
  match findUser users username with
  | some user =>
      if bcryptCompareSync password user.password then
        (.okObj [("id", Value.int (Int.ofNat user.id)),
                 ("username", Value.text user.username),
                 ("role", Value.text user.role)],
         some { userId := user.id, username := user.username })
      else
        (.err 401 [("error", Value.text "Invalid credentials")], sess)
  | none => (.err 401 [("error", Value.text "Invalid credentials")], sess)

/-- `POST /api/logout`: `req.session.destroy` then `{success: true}`,
whatever the session state was. -/
def postLogout (_sess : Option Session) : ApiResult × Option Session :=
  (.okObj [("success", Value.bool true)], none)

/-- `GET /api/me`: `{id, username}` from the session, or 401 when
`req.session.userId` is unset. -/
def getMe (sess : Option Session) : ApiResult :=
  match sess with
  | some s => .okObj [("id", Value.int (Int.ofNat s.userId)),
                      ("username", Value.text s.username)]
  | none => .err 401 [("error", Value.text "Not logged in")]

/-- Ordering used by `ORDER BY created_at DESC`: `a` may precede `b` when
`a`'s creation time is at least `b`'s. -/
def rowGE (a b : Row) : Prop :=
  b.created_at ≤ a.created_at

instance : DecidableRel rowGE := fun a b =>
  inferInstanceAs (Decidable (b.created_at ≤ a.created_at))

/-- `SELECT * FROM R ORDER BY created_at DESC`: the rows sorted by
creation time, newest first, scanning in rowid order (a stable sort, so
rows with equal timestamps keep rowid order). -/
def Table.listAll (t : Table) : List Row :=
  t.rows.insertionSort rowGE

/-- `GET /api/R` behind the `authenticate` middleware: 401 without a
session, otherwise the full listing newest first. -/
def apiGet (st : ServerState) (R : Resource) : ApiResult :=
  match st.session with
  | some _ => .okRows (st.db.table R).listAll
  | none => .err 401 [("error", Value.text "Unauthorized")]

/-- Binding one destructured request-body field as a SQL parameter: a
present JSON value is stored as-is, an absent field is stored as NULL. -/
def bindValue : Option Value → Value
  | some v => v
  | none => .null

/-- `POST /api/R` behind the `authenticate` middleware: 401 without a
session; otherwise destructure exactly `R.fields` from the body, insert
one row tagged with the session's userId and the current timestamp, and
answer `{id: <new rowid>}`.  No field validation exists. -/
def apiPost (st : ServerState) (R : Resource) (body : Obj) (now : Nat) :
    ApiResult × ServerState :=
  match st.session with
  | some s =>
      let t := st.db.table R
      let row : Row :=
        { id := t.nextId
          user_id := s.userId
          fields := R.fields.map (fun f => bindValue (lookupKey body f))
          created_at := now }
      (.okObj [("id", Value.int (Int.ofNat t.nextId))],
       { st with db := st.db.setTable R { nextId := t.nextId + 1, rows := t.rows ++ [row] } })
  | none => (.err 401 [("error", Value.text "Unauthorized")], st)

/-- The client-side `Inspection` interface rendered by the dashboard;
`status` is free text in storage, so it is a plain string here. -/
structure ClientInspection where
  id : Nat
  project_name : String
  date : String
  location : String
  findings : String
  status : String
deriving DecidableEq

/-- The three `stats` values computed by `DashboardView` from the fetched
inspections: counts of status `pending`, `completed` and `urgent`, each a
`filter(...).length` over the list. -/
def dashboardStats (inspections : List ClientInspection) : Nat × Nat × Nat :=
  ((inspections.filter (fun i => i.status == "pending")).length,
   (inspections.filter (fun i => i.status == "completed")).length,
   (inspections.filter (fun i => i.status == "urgent")).length)

/-- The database after the first boot: schema created and admin seeded. -/
def seededDb : Db := seedAdmin emptyDb

/-- The session established by a successful admin login. -/
def adminSession : Session := { userId := 1, username := "admin" }

/-- A server state with the seeded database and a logged-in admin. -/
def loggedInState : ServerState := { db := seededDb, session := some adminSession }

/-- A complete valid inspection request body, as the client form submits it. -/
def sampleInspectionBody : Obj :=
  [("project_name", Value.text "p"), ("date", Value.text "2026-01-01"),
   ("location", Value.text "site"), ("findings", Value.text "ok"),
   ("status", Value.text "pending")]

lemma bcryptHashSync_injective {a b : String} (h : bcryptHashSync a = bcryptHashSync b) :
    a = b := by
  have hd : (("bcrypt$" : String) ++ a).data = (("bcrypt$" : String) ++ b).data :=
    congrArg String.data h
  rw [String.data_append, String.data_append] at hd
  exact String.ext (List.append_cancel_left hd)

lemma Db.table_setTable (db : Db) (R : Resource) (t : Table) :
    (db.setTable R t).table R = t := by
  cases R <;> rfl

lemma apiPost_session (st : ServerState) (R : Resource) (body : Obj) (now : Nat) :
    (apiPost st R body now).2.session = st.session := by
  rcases h : st.session with _ | s <;> simp [apiPost, h]

lemma insertionSort_append_newest (l : List Row) (r : Row)
    (h : ∀ x ∈ l, x.created_at < r.created_at) :
    List.insertionSort rowGE (l ++ [r]) = r :: List.insertionSort rowGE l := by
  induction l with
  | nil => simp
  | cons x l ih =>
    have hx : ¬ rowGE x r := by
      simp only [rowGE, not_le]
      exact h x (List.mem_cons_self x l)
    rw [List.cons_append, List.insertionSort, ih (fun y hy => h y (List.mem_cons_of_mem _ hy))]
    simp only [List.orderedInsert, if_neg hx, List.insertionSort]

lemma seedAdmin_fix (db : Db) (h : 0 < countAdmin db) : seedAdmin db = db := by
  have hne : db.users.filter (fun u => u.username == "admin") ≠ [] :=
    List.length_pos.mp h
  obtain ⟨u, hu⟩ := List.exists_mem_of_ne_nil _ hne
  have hmem := List.mem_filter.mp hu
  have hsome : (db.users.find? (fun u => u.username == "admin")).isSome :=
    List.find?_isSome.mpr ⟨u, hmem.1, hmem.2⟩
  obtain ⟨v, hv⟩ := Option.isSome_iff_exists.mp hsome
  simp [seedAdmin, findUser, hv]

/-- C1: for every resource R, a `POST /api/R` carrying no session is
answered 401 `{error:'Unauthorized'}` by the `authenticate` middleware,
the server state is unchanged, and in particular the stored row count of
R is unchanged. -/
theorem c1_post_without_session (st : ServerState) (R : Resource) (body : Obj) (now : Nat)
    (h : st.session = none) :
    apiPost st R body now = (.err 401 [("error", Value.text "Unauthorized")], st) ∧
    ((apiPost st R body now).2.db.table R).rows.length = (st.db.table R).rows.length := by
  refine ⟨by simp [apiPost, h], ?_⟩
  simp [apiPost, h]

/-- Witness for C1 at a concrete unauthenticated state. -/
theorem c1_post_without_session_witness :
    apiPost { db := emptyDb, session := none } Resource.inspections sampleInspectionBody 0 =
      (.err 401 [("error", Value.text "Unauthorized")], { db := emptyDb, session := none }) ∧
    ((apiPost { db := emptyDb, session := none } Resource.inspections sampleInspectionBody 0).2.db.table
        Resource.inspections).rows.length =
      (emptyDb.table Resource.inspections).rows.length :=
  c1_post_without_session { db := emptyDb, session := none } Resource.inspections
    sampleInspectionBody 0 rfl

/-- C3: login with the seeded credentials (admin / admin123) succeeds and
answers `{id, username:"admin", role}` while establishing the session;
login with a wrong password for the existing admin answers 401
`{error:'Invalid credentials'}`; login for a non-existent username answers
401 with the same error body, so the two failures are indistinguishable. -/
theorem c3_login_seeded_credentials (sess sess2 : Option Session) (p uname pw : String)
    (hp : p ≠ "admin123") (hu : findUser seededDb.users uname = none) :
    postLogin seededDb.users none "admin" "admin123" =
      (.okObj [("id", Value.int 1), ("username", Value.text "admin"),
               ("role", Value.text "admin")],
       some { userId := 1, username := "admin" }) ∧
    (postLogin seededDb.users sess "admin" p).1 =
      .err 401 [("error", Value.text "Invalid credentials")] ∧
    (postLogin seededDb.users sess2 uname pw).1 =
      .err 401 [("error", Value.text "Invalid credentials")] := by
  refine ⟨by decide, ?_, by simp [postLogin, hu]⟩
  have hfind : findUser seededDb.users "admin" =
      some { id := 1, username := "admin", password := bcryptHashSync "admin123",
             role := "admin" } := by
    decide
  have hcmp : bcryptCompareSync p (bcryptHashSync "admin123") = false := by
    rw [bcryptCompareSync, beq_eq_false_iff_ne]
    intro he
    exact hp (bcryptHashSync_injective he).symm
  simp [postLogin, hfind, hcmp]

/-- Witness for C3: concrete wrong password and concrete missing user. -/
theorem c3_login_seeded_credentials_witness :
    postLogin seededDb.users none "admin" "admin123" =
      (.okObj [("id", Value.int 1), ("username", Value.text "admin"),
               ("role", Value.text "admin")],
       some { userId := 1, username := "admin" }) ∧
    (postLogin seededDb.users none "admin" "wrongpass").1 =
      .err 401 [("error", Value.text "Invalid credentials")] ∧
    (postLogin seededDb.users none "nobody" "admin123").1 =
      .err 401 [("error", Value.text "Invalid credentials")] :=
  c3_login_seeded_credentials none none "wrongpass" "nobody" "admin123"
    (by decide) (by decide)

/-- C5: seeding is idempotent for the admin account: if a user named
"admin" exists the seed block inserts nothing, and after any positive
number of boots starting from the fresh database there is exactly one
user named "admin". -/
theorem c5_seed_idempotent :
    (∀ db u, findUser db.users "admin" = some u → seedAdmin db = db) ∧
    (∀ n : Nat, countAdmin (seedAdmin^[n + 1] emptyDb) = 1) := by
  constructor
  · intro db u h
    simp [seedAdmin, h]
  · intro n
    induction n with
    | zero => decide
    | succ n ih =>
      rw [Function.iterate_succ_apply', seedAdmin_fix _ (by rw [ih]; exact Nat.one_pos)]
      exact ih

/-- Witness for C5: a second boot on the seeded database is a no-op, and
three boots leave exactly one admin. -/
theorem c5_seed_idempotent_witness :
    seedAdmin seededDb = seededDb ∧ countAdmin (seedAdmin^[3] emptyDb) = 1 :=
  ⟨c5_seed_idempotent.1 seededDb
      { id := 1, username := "admin", password := bcryptHashSync "admin123", role := "admin" }
      (by decide),
   c5_seed_idempotent.2 2⟩

/-- C6: the three dashboard stats equal the number of fetched inspections
whose status is `pending`, `completed` and `urgent` respectively; on the
statuses [pending, urgent, completed, pending] they are (2, 1, 1). -/
theorem c6_dashboard_status_counts :
    (∀ l : List ClientInspection,
        dashboardStats l =
          (l.countP (fun i => i.status == "pending"),
           l.countP (fun i => i.status == "completed"),
           l.countP (fun i => i.status == "urgent"))) ∧
    dashboardStats
        [{ id := 1, project_name := "a", date := "d1", location := "x",
           findings := "f1", status := "pending" },
         { id := 2, project_name := "b", date := "d2", location := "y",
           findings := "f2", status := "urgent" },
         { id := 3, project_name := "c", date := "d3", location := "z",
           findings := "f3", status := "completed" },
         { id := 4, project_name := "e", date := "d4", location := "w",
           findings := "f4", status := "pending" }] = (2, 1, 1) := by
  refine ⟨fun l => ?_, by decide⟩
  simp [dashboardStats, List.countP_eq_length_filter]

/-- C7: logout destroys the session unconditionally and answers
`{success: true}`; it is idempotent with no active session; and after a
logout `GET /api/me` answers 401 even though it succeeded just before. -/
theorem c7_logout_unconditional (sess : Option Session) (s : Session) :
    postLogout sess = (.okObj [("success", Value.bool true)], none) ∧
    postLogout (postLogout sess).2 = postLogout sess ∧
    getMe (some s) = .okObj [("id", Value.int (Int.ofNat s.userId)),
                             ("username", Value.text s.username)] ∧
    getMe (postLogout (some s)).2 = .err 401 [("error", Value.text "Not logged in")] :=
  ⟨rfl, rfl, rfl, rfl⟩

/-- C9: no login or me response carries the password column: a login
response's body keys are exactly [id, username, role] on success and
[error] on failure, and a me response's keys are exactly [id, username]
or [error], for every user list and session state. -/
theorem c9_password_never_in_response (users : List UserRow) (sess : Option Session)
    (username password : String) (s : Option Session) :
    ((postLogin users sess username password).1.bodyKeys = ["id", "username", "role"] ∨
      (postLogin users sess username password).1.bodyKeys = ["error"]) ∧
    ((getMe s).bodyKeys = ["id", "username"] ∨ (getMe s).bodyKeys = ["error"]) := by
  constructor
  · rcases hf : findUser users username with _ | u
    · exact Or.inr (by simp [postLogin, hf, ApiResult.bodyKeys])
    · rcases hc : bcryptCompareSync password u.password
      · exact Or.inr (by simp [postLogin, hf, hc, ApiResult.bodyKeys])
      · exact Or.inl (by simp [postLogin, hf, hc, ApiResult.bodyKeys])
  · rcases s with _ | s
    · exact Or.inr rfl
    · exact Or.inl rfl

lemma apiGet_of_some (st : ServerState) (R : Resource) (s : Session)
    (h : st.session = some s) :
    apiGet st R = .okRows (st.db.table R).listAll := by
  simp [apiGet, h]

lemma apiPost_fst_of_some (st : ServerState) (R : Resource) (body : Obj) (now : Nat)
    (s : Session) (h : st.session = some s) :
    (apiPost st R body now).1 =
      .okObj [("id", Value.int (Int.ofNat (st.db.table R).nextId))] := by
  simp [apiPost, h]

/-- C2: an authenticated `POST /api/R` whose body supplies every domain
field answers `{id}` with the table's next id, and a subsequent
`GET /api/R` lists that row first — before every previously-inserted row —
with exactly the submitted field values, provided its creation time is
later than every stored row's (`ORDER BY created_at DESC`). -/
theorem c2_post_then_get_newest_first (st : ServerState) (s : Session) (R : Resource)
    (body : Obj) (now : Nat) (v : String → Value)
    (hs : st.session = some s)
    (hfresh : ∀ x ∈ (st.db.table R).rows, x.created_at < now)
    (hbody : ∀ f ∈ R.fields, lookupKey body f = some (v f)) :
    (apiPost st R body now).1 =
      .okObj [("id", Value.int (Int.ofNat (st.db.table R).nextId))] ∧
    apiGet (apiPost st R body now).2 R =
      .okRows ({ id := (st.db.table R).nextId, user_id := s.userId,
                 fields := R.fields.map v, created_at := now } :: (st.db.table R).listAll) := by
  have hmap : R.fields.map (fun f => bindValue (lookupKey body f)) = R.fields.map v :=
    List.map_congr_left (fun f hf => by rw [hbody f hf]; rfl)
  have hdb : (apiPost st R body now).2.db =
      st.db.setTable R
        { nextId := (st.db.table R).nextId + 1
          rows := (st.db.table R).rows ++
            [{ id := (st.db.table R).nextId, user_id := s.userId,
               fields := R.fields.map v, created_at := now }] } := by
    simp [apiPost, hs, hmap]
  have hsess : (apiPost st R body now).2.session = some s := by
    rw [apiPost_session, hs]
  refine ⟨by simp [apiPost, hs], ?_⟩
  rw [apiGet_of_some _ R s hsess, hdb, Db.table_setTable]
  simp only [Table.listAll]
  rw [insertionSort_append_newest _ _ hfresh]

/-- Witness for C2: the first inspection created by the logged-in admin on
the seeded database is listed first with the submitted fields. -/
theorem c2_post_then_get_newest_first_witness :
    (apiPost loggedInState Resource.inspections sampleInspectionBody 1).1 =
      .okObj [("id", Value.int 1)] ∧
    apiGet (apiPost loggedInState Resource.inspections sampleInspectionBody 1).2
        Resource.inspections =
      .okRows [{ id := 1, user_id := 1,
                 fields := [Value.text "p", Value.text "2026-01-01", Value.text "site",
                            Value.text "ok", Value.text "pending"],
                 created_at := 1 }] :=
  c2_post_then_get_newest_first loggedInState adminSession Resource.inspections
    sampleInspectionBody 1 (fun f => bindValue (lookupKey sampleInspectionBody f))
    rfl (by decide) (by decide)

/-- C4: an authenticated `POST /api/R` succeeds whatever fields the body
omits: it answers `{id}`, appends exactly one row whose domain columns are
the body's values with NULL for every absent field, and no validation
rejects the request. -/
theorem c4_post_without_validation (st : ServerState) (s : Session) (R : Resource)
    (body : Obj) (now : Nat) (hs : st.session = some s) :
    (apiPost st R body now).1 =
      .okObj [("id", Value.int (Int.ofNat (st.db.table R).nextId))] ∧
    ((apiPost st R body now).2.db.table R).rows =
      (st.db.table R).rows ++
        [{ id := (st.db.table R).nextId, user_id := s.userId,
           fields := R.fields.map (fun f => bindValue (lookupKey body f)),
           created_at := now }] ∧
    ∀ f ∈ R.fields, lookupKey body f = none → bindValue (lookupKey body f) = Value.null := by
  refine ⟨by simp [apiPost, hs], ?_, ?_⟩
  · simp [apiPost, hs, Db.table_setTable]
  · intro f _ h
    rw [h]
    rfl

/-- Witness for C4: posting an empty body to `/api/minutes` inserts one
row of NULL domain columns and answers `{id: 1}`. -/
theorem c4_post_without_validation_witness :
    (apiPost loggedInState Resource.minutes [] 7).1 = .okObj [("id", Value.int 1)] ∧
    ((apiPost loggedInState Resource.minutes [] 7).2.db.table Resource.minutes).rows =
      [{ id := 1, user_id := 1,
         fields := [Value.null, Value.null, Value.null, Value.null, Value.null],
         created_at := 7 }] ∧
    ∀ f ∈ Resource.minutes.fields, lookupKey ([] : Obj) f = none →
      bindValue (lookupKey ([] : Obj) f) = Value.null :=
  c4_post_without_validation loggedInState adminSession Resource.minutes [] 7 rfl

/-- A request body carrying the declared inspection fields plus extra keys
a client might try to smuggle in. -/
def paddedInspectionBody : Obj :=
  sampleInspectionBody ++
    [("user_id", Value.int 999), ("id", Value.int 123),
     ("created_at", Value.text "2020-01-01"), ("extra", Value.text "ignored")]

/-- C8: `POST /api/R` stores only R's declared domain fields: two bodies
agreeing on those fields produce identical responses and states, every row
the request leaves in the table is an old row or carries the session's
userId, and `user_id`, `id`, `created_at` are never among the destructured
fields, so client-supplied values for them have no effect. -/
theorem c8_ignores_undeclared_fields (st : ServerState) (s : Session) (R : Resource)
    (body1 body2 : Obj) (now : Nat)
    (hs : st.session = some s)
    (hagree : ∀ f ∈ R.fields, lookupKey body1 f = lookupKey body2 f) :
    apiPost st R body1 now = apiPost st R body2 now ∧
    (∀ r ∈ ((apiPost st R body1 now).2.db.table R).rows,
        r ∈ (st.db.table R).rows ∨ r.user_id = s.userId) ∧
    ("user_id" ∉ R.fields ∧ "id" ∉ R.fields ∧ "created_at" ∉ R.fields) := by
  have hmap : R.fields.map (fun f => bindValue (lookupKey body1 f)) =
      R.fields.map (fun f => bindValue (lookupKey body2 f)) :=
    List.map_congr_left (fun f hf => by rw [hagree f hf])
  refine ⟨by simp [apiPost, hs, hmap], ?_, by cases R <;> decide⟩
  intro r hr
  have hrows : ((apiPost st R body1 now).2.db.table R).rows =
      (st.db.table R).rows ++
        [{ id := (st.db.table R).nextId, user_id := s.userId,
           fields := R.fields.map (fun f => bindValue (lookupKey body1 f)),
           created_at := now }] := by
    simp [apiPost, hs, Db.table_setTable]
  rw [hrows] at hr
  rcases List.mem_append.mp hr with h | h
  · exact Or.inl h
  · exact Or.inr (by rw [List.mem_singleton.mp h])

/-- Witness for C8: smuggling `user_id`, `id`, `created_at` and an extra
key into an inspection body changes nothing. -/
theorem c8_ignores_undeclared_fields_witness :
    apiPost loggedInState Resource.inspections sampleInspectionBody 5 =
      apiPost loggedInState Resource.inspections paddedInspectionBody 5 ∧
    (∀ r ∈ ((apiPost loggedInState Resource.inspections sampleInspectionBody 5).2.db.table
        Resource.inspections).rows,
        r ∈ (loggedInState.db.table Resource.inspections).rows ∨
          r.user_id = adminSession.userId) ∧
    ("user_id" ∉ Resource.inspections.fields ∧ "id" ∉ Resource.inspections.fields ∧
      "created_at" ∉ Resource.inspections.fields) :=
  c8_ignores_undeclared_fields loggedInState adminSession Resource.inspections
    sampleInspectionBody paddedInspectionBody 5 rfl (by decide)

/-- C10: ids handed back by successive successful creates on one resource
are strictly increasing: the first create answers the AUTOINCREMENT
counter and the next one answers its successor. -/
theorem c10_ids_strictly_increasing (st : ServerState) (s : Session) (R : Resource)
    (body1 body2 : Obj) (now1 now2 : Nat) (hs : st.session = some s) :
    ∃ n1 n2 : Nat,
      (apiPost st R body1 now1).1 = .okObj [("id", Value.int (Int.ofNat n1))] ∧
      (apiPost (apiPost st R body1 now1).2 R body2 now2).1 =
        .okObj [("id", Value.int (Int.ofNat n2))] ∧
      n1 < n2 := by
  have hsess : (apiPost st R body1 now1).2.session = some s := by
    rw [apiPost_session, hs]
  have htab : ((apiPost st R body1 now1).2.db.table R).nextId = (st.db.table R).nextId + 1 := by
    simp [apiPost, hs, Db.table_setTable]
  refine ⟨(st.db.table R).nextId, (st.db.table R).nextId + 1,
    apiPost_fst_of_some st R body1 now1 s hs, ?_, Nat.lt_succ_self _⟩
  rw [apiPost_fst_of_some _ R body2 now2 s hsess, htab]

/-- Witness for C10: two estimate creates by the logged-in admin return
strictly increasing ids. -/
theorem c10_ids_strictly_increasing_witness :
    ∃ n1 n2 : Nat,
      (apiPost loggedInState Resource.estimates [] 1).1 =
        .okObj [("id", Value.int (Int.ofNat n1))] ∧
      (apiPost (apiPost loggedInState Resource.estimates [] 1).2 Resource.estimates [] 2).1 =
        .okObj [("id", Value.int (Int.ofNat n2))] ∧
      n1 < n2 :=
  c10_ids_strictly_increasing loggedInState adminSession Resource.estimates [] [] 1 2 rfl
